import Mathlib

/-
Verification of src/src/DeepTreeEcho/taskflow_bridge.cpp (namespace
taskflow_bridge, class TaskflowBridge).

The bridge is a handle registry: a shared counter next_id_ and five
std::map registries (taskflows_, task_handles_, atomspaces_, atoms_,
tensors_).  We embed each std::map<int, T> as an association list with
unique keys; mapFind / mapInsert / mapAdjust mirror map::find,
map::operator[] assignment (insert or overwrite) and in-place update of
an existing entry.  C++ exceptions become an explicit error value paired
with the state at throw time; every bridge method therefore has type
Bridge -> ... -> result x Bridge.
-/

namespace TaskBridge

/-- Lookup in an association list: the value of the first entry whose key
matches, as std::map::find (keys are unique in any list reachable from the
operations below). -/
def mapFind {α : Type} : List (Nat × α) → Nat → Option α
  | [], _ => none
  | p :: rest, k => if p.1 = k then some p.2 else mapFind rest k

/-- Insert or overwrite, as assignment through std::map::operator[]: replace
the entry holding the key if present, otherwise append a new entry. -/
def mapInsert {α : Type} : List (Nat × α) → Nat → α → List (Nat × α)
  | [], k, v => [(k, v)]
  | p :: rest, k, v => if p.1 = k then (k, v) :: rest else p :: mapInsert rest k v

/-- Update the value stored under an existing key in place; a missing key
leaves the list unchanged. -/
def mapAdjust {α : Type} : List (Nat × α) → Nat → (α → α) → List (Nat × α)
  | [], _, _ => []
  | p :: rest, k, f => if p.1 = k then (p.1, f p.2) :: rest else p :: mapAdjust rest k f

/-- Lookup with a default, as std::map::operator[] read of a maybe-missing
key (default-constructed value). -/
def mapGetD {α : Type} (m : List (Nat × α)) (k : Nat) (d : α) : α :=
  (mapFind m k).getD d

/-- A tf::Taskflow: the tasks emplaced into it, in emplacement order (a task
is identified by its position, its stored payload here is its name), and the
directed edges recorded by tf::Task::precede between those positions. -/
structure Taskflow where
  tasks : List String
  edges : List (Nat × Nat)
deriving DecidableEq

/-- Modelled from the spec: a tf::Atom of the external cognitive library
(not under src/) carries a type tag, a name and a scalar attention value
read and written through set_attention / get_attention; the spec calls this
keyed storage for scalar attention values.  The initial attention is the
library default, modelled as 0. -/
structure Atom where
  atomType : Int
  name : String
  attention : Float

/-- Modelled from the spec: a tf::FloatCognitiveTensor of the external
library (not under src/) is a fixed-shape float buffer; its element count is
the product of its dimensions and create_tensor fills it with 0.0f. -/
structure Tensor where
  shape : List Int
  data : List Float

/-- The mutable state of a TaskflowBridge: the shared identifier counter
next_id_ and the five registries.  tf::AtomSpace is external library state
never observed through the bridge interface, so its payload is a unit;
atoms added to a space are reached only through the atoms_ registry. -/
structure Bridge where
  nextId : Nat
  taskflows : List (Nat × Taskflow)
  taskHandles : List (Nat × List (Nat × Nat))
  atomspaces : List (Nat × Unit)
  atoms : List (Nat × Atom)
  tensors : List (Nat × Tensor)

/-- The std::runtime_error messages thrown by the bridge, one constructor
per distinct message string. -/
inductive BridgeError where
  /-- message "Taskflow not found" (with or without the id suffix) -/
  | taskflowNotFound
  /-- message "Task not found" -/
  | taskNotFound
  /-- message "AtomSpace not found" -/
  | atomSpaceNotFound
  /-- message "Atom not found" -/
  | atomNotFound
  /-- message "Tensor not found" -/
  | tensorNotFound
  /-- message "Data size mismatch" -/
  | dataSizeMismatch
deriving DecidableEq

/-- The constructor TaskflowBridge(int): next_id_ starts at 1 and every
registry starts empty (num_threads only sizes the executors, which hold no
modelled state). -/
def initBridge : Bridge :=
  { nextId := 1, taskflows := [], taskHandles := [], atomspaces := [],
    atoms := [], tensors := [] }

/-- create_taskflow: allocate id = next_id_++, bind an empty tf::Taskflow
under it in taskflows_ and an empty handle map under it in task_handles_,
return the id. -/
def create_taskflow (b : Bridge) : Nat × Bridge :=
  let id := b.nextId
  (id, { b with
    nextId := id + 1,
    taskflows := mapInsert b.taskflows id { tasks := [], edges := [] },
    taskHandles := mapInsert b.taskHandles id [] })

/-- add_task: throw "Taskflow not found" if taskflow_id is not in taskflows_;
otherwise emplace a new task (named name) into the taskflow and bind the
caller-supplied task_id to it in task_handles_[taskflow_id], overwriting any
prior binding of that task_id. -/
def add_task (b : Bridge) (taskflow_id task_id : Nat) (name : String) :
    Except BridgeError Unit × Bridge :=
  match mapFind b.taskflows taskflow_id with
  | none => (.error .taskflowNotFound, b)
  | some tf =>
    let ref := tf.tasks.length
    (.ok (), { b with
      taskflows := mapInsert b.taskflows taskflow_id { tf with tasks := tf.tasks ++ [name] },
      taskHandles := mapInsert b.taskHandles taskflow_id
        (mapInsert (mapGetD b.taskHandles taskflow_id []) task_id ref) })

/-- add_dependency: throw "Taskflow not found" if taskflow_id is not in
task_handles_; throw "Task not found" if either task id is unbound in that
handle map; otherwise handles[from_task].precede(handles[to_task]) records
the edge in the taskflow owning the two tasks (create_taskflow keeps
taskflows_ and task_handles_ bound under the same id, so that owner is the
entry of taskflows_ under taskflow_id). -/
def add_dependency (b : Bridge) (taskflow_id from_task to_task : Nat) :
    Except BridgeError Unit × Bridge :=
  match mapFind b.taskHandles taskflow_id with
  | none => (.error .taskflowNotFound, b)
  | some handles =>
    match mapFind handles from_task, mapFind handles to_task with
    | some rf, some rt =>
      (.ok (), { b with
        taskflows := mapAdjust b.taskflows taskflow_id
          (fun tf => { tf with edges := tf.edges ++ [(rf, rt)] }) })
    | _, _ => (.error .taskNotFound, b)

/-- execute_taskflow: throw "Taskflow not found" if the id is unbound,
otherwise hand the taskflow to the executor (executor state is outside the
modelled registries, so the bridge state is unchanged). -/
def execute_taskflow (b : Bridge) (taskflow_id : Nat) :
    Except BridgeError Unit × Bridge :=
  match mapFind b.taskflows taskflow_id with
  | none => (.error .taskflowNotFound, b)
  | some _ => (.ok (), b)

/-- wait_taskflow: calls executor_.wait_for_all() unconditionally; the
taskflow_id argument is ignored and never resolved, so the call succeeds for
every id and changes no registry. -/
def wait_taskflow (b : Bridge) (taskflow_id : Nat) :
    Except BridgeError Unit × Bridge :=
  (.ok (), b)

/-- create_atomspace: allocate id = next_id_++ and bind a fresh
tf::AtomSpace (external state, modelled as a unit) under it. -/
def create_atomspace (b : Bridge) : Nat × Bridge :=
  let id := b.nextId
  (id, { b with
    nextId := id + 1,
    atomspaces := mapInsert b.atomspaces id () })

/-- add_atom: throw "AtomSpace not found" if space_id is unbound; otherwise
create the atom in the space, allocate atom_id = next_id_++, bind the atom
under it in atoms_ and return it. -/
def add_atom (b : Bridge) (space_id : Nat) (atom_type : Int) (name : String) :
    Except BridgeError Nat × Bridge :=
  match mapFind b.atomspaces space_id with
  | none => (.error .atomSpaceNotFound, b)
  | some _ =>
    let atom_id := b.nextId
    (.ok atom_id, { b with
      nextId := atom_id + 1,
      atoms := mapInsert b.atoms atom_id
        { atomType := atom_type, name := name, attention := 0.0 } })

/-- set_attention: throw "Atom not found" if atom_id is unbound, otherwise
store the new attention on the atom. -/
def set_attention (b : Bridge) (atom_id : Nat) (attention : Float) :
    Except BridgeError Unit × Bridge :=
  match mapFind b.atoms atom_id with
  | none => (.error .atomNotFound, b)
  | some _ =>
    (.ok (), { b with
      atoms := mapAdjust b.atoms atom_id (fun a => { a with attention := attention }) })

/-- get_attention: throw "Atom not found" if atom_id is unbound, otherwise
return the stored attention; no registry changes. -/
def get_attention (b : Bridge) (atom_id : Nat) :
    Except BridgeError Float × Bridge :=
  match mapFind b.atoms atom_id with
  | none => (.error .atomNotFound, b)
  | some a => (.ok a.attention, b)

/-- create_tensor: allocate id = next_id_++ and bind a tensor of the given
shape, zero-filled, under it.  The element count of the external
tf::FloatCognitiveTensor is the product of the dimensions. -/
def create_tensor (b : Bridge) (shape : List Int) : Nat × Bridge :=
  let id := b.nextId
  let size := (shape.map Int.toNat).foldl (fun a d => a * d) 1
  (id, { b with
    nextId := id + 1,
    tensors := mapInsert b.tensors id
      { shape := shape, data := List.replicate size 0.0 } })

/-- set_tensor_data: throw "Tensor not found" if tensor_id is unbound; throw
"Data size mismatch" if the supplied buffer has a different element count;
otherwise copy the buffer into the tensor. -/
def set_tensor_data (b : Bridge) (tensor_id : Nat) (data : List Float) :
    Except BridgeError Unit × Bridge :=
  match mapFind b.tensors tensor_id with
  | none => (.error .tensorNotFound, b)
  | some t =>
    if data.length ≠ t.data.length then (.error .dataSizeMismatch, b)
    else
      (.ok (), { b with
        tensors := mapAdjust b.tensors tensor_id (fun u => { u with data := data }) })

/-- get_tensor_data: throw "Tensor not found" if tensor_id is unbound,
otherwise return a copy of the tensor contents; no registry changes. -/
def get_tensor_data (b : Bridge) (tensor_id : Nat) :
    Except BridgeError (List Float) × Bridge :=
  match mapFind b.tensors tensor_id with
  | none => (.error .tensorNotFound, b)
  | some t => (.ok t.data, b)

/-- taskgraph_to_tree: declares a level_sequence vector, returns it empty
when taskflow_id is unbound in task_handles_, and returns it still empty
otherwise — the BFS over the dependencies exists only as a comment, so
both branches yield the empty sequence and no error is ever raised. -/
def taskgraph_to_tree (b : Bridge) (taskflow_id : Nat) : List Int × Bridge :=
  match mapFind b.taskHandles taskflow_id with
  | none => (([] : List Int), b)
  | some _ => (([] : List Int), b)

/-- The parent scan of tree_to_taskgraph: with target depth t, try
j = k-1, k-2, ..., 0 and return the first j with level_sequence[j] == t
(the C++ loop for j from i-1 down to 0). -/
def scanParent (s : List Int) (t : Int) : Nat → Option Nat
  | 0 => none
  | k + 1 => if s.getD k 0 = t then some k else scanParent s t k

/-- The parent of position i in level sequence s: the first j among
i-1, ..., 0 whose level equals level_sequence[i] - 1.  (Every call has
i < s.length, so the getD defaults are never consulted.) -/
def findParent (s : List Int) (i : Nat) : Option Nat :=
  scanParent s (s.getD i 0 - 1) i

/-- The first loop of tree_to_taskgraph: for each remaining index i call
add_task(taskflow_id, i, "task_" + to_string(i)); a thrown exception stops
the loop and propagates with the state at throw time. -/
def runTasksLoop (taskflow_id : Nat) : List Nat → Bridge → Except BridgeError Unit × Bridge
  | [], b => (.ok (), b)
  | i :: rest, b =>
    match add_task b taskflow_id i ("task_" ++ toString i) with
    | (.ok _, b2) => runTasksLoop taskflow_id rest b2
    | (.error e, b2) => (.error e, b2)

/-- The second loop of tree_to_taskgraph: for each remaining index i find
the parent j by the downward scan and, when one exists, call
add_dependency(taskflow_id, j, i); when none exists the loop silently moves
on.  A thrown exception stops the loop and propagates. -/
def runDepsLoop (taskflow_id : Nat) (s : List Int) : List Nat → Bridge → Except BridgeError Unit × Bridge
  | [], b => (.ok (), b)
  | i :: rest, b =>
    match findParent s i with
    | some j =>
      match add_dependency b taskflow_id j i with
      | (.ok _, b2) => runDepsLoop taskflow_id s rest b2
      | (.error e, b2) => (.error e, b2)
    | none => runDepsLoop taskflow_id s rest b

/-- tree_to_taskgraph: create a fresh taskflow, add one task per element of
the level sequence (task id = position, for i = 0 .. n-1), then for
i = 1 .. n-1 wire i to the scanned parent when one exists, and return the
taskflow id. -/
def tree_to_taskgraph (b : Bridge) (s : List Int) : Except BridgeError Nat × Bridge :=
  let p := create_taskflow b
  match runTasksLoop p.1 (List.range' 0 s.length) p.2 with
  | (.error e, b2) => (.error e, b2)
  | (.ok _, b2) =>
    match runDepsLoop p.1 s (List.range' 1 (s.length - 1)) b2 with
    | (.error e, b3) => (.error e, b3)
    | (.ok _, b3) => (.ok p.1, b3)

/-- num_taskflows: taskflows_.size(). -/
def num_taskflows (b : Bridge) : Nat := b.taskflows.length

/-- num_atomspaces: atomspaces_.size(). -/
def num_atomspaces (b : Bridge) : Nat := b.atomspaces.length

/-- num_tensors: tensors_.size(). -/
def num_tensors (b : Bridge) : Nat := b.tensors.length

/-- The names given to the tasks created by tree_to_taskgraph, in creation
order. -/
def taskNames (n : Nat) : List String :=
  (List.range' 0 n).map (fun i => "task_" ++ toString i)

/-- The handle map built by tree_to_taskgraph: position i of the level
sequence is bound to the i-th emplaced task. -/
def decodeHandles (n : Nat) : List (Nat × Nat) :=
  (List.range' 0 n).map (fun i => (i, i))

/-- The edges recorded by tree_to_taskgraph: for each position i from 1 on,
the edge from the scanned parent to i when the scan succeeds, and nothing
when it fails. -/
def decodeEdges (s : List Int) : List (Nat × Nat) :=
  (List.range' 1 (s.length - 1)).filterMap (fun i => (findParent s i).map (fun j => (j, i)))

/-- The bridge state after tree_to_taskgraph: one fresh taskflow holding the
decoded tasks and edges, bound under the old next_id_, and the counter
advanced once. -/
def decodeState (b : Bridge) (s : List Int) : Bridge :=
  { b with
    nextId := b.nextId + 1,
    taskflows := mapInsert b.taskflows b.nextId
      { tasks := taskNames s.length, edges := decodeEdges s },
    taskHandles := mapInsert b.taskHandles b.nextId (decodeHandles s.length) }

/-- One call through the public interface of the bridge, with its
arguments. -/
inductive Op where
  | createTaskflow
  | addTask (taskflow_id task_id : Nat) (name : String)
  | addDependency (taskflow_id from_task to_task : Nat)
  | executeTaskflow (taskflow_id : Nat)
  | waitTaskflow (taskflow_id : Nat)
  | createAtomspace
  | addAtom (space_id : Nat) (atom_type : Int) (name : String)
  | setAttention (atom_id : Nat) (attention : Float)
  | getAttention (atom_id : Nat)
  | createTensor (shape : List Int)
  | setTensorData (tensor_id : Nat) (data : List Float)
  | getTensorData (tensor_id : Nat)
  | taskgraphToTree (taskflow_id : Nat)
  | treeToTaskgraph (s : List Int)

/-- The bridge state after one interface call (the thrown-or-returned value
is dropped, the registries are kept). -/
def stepOp (b : Bridge) : Op → Bridge
  | .createTaskflow => (create_taskflow b).2
  | .addTask tid k name => (add_task b tid k name).2
  | .addDependency tid f t => (add_dependency b tid f t).2
  | .executeTaskflow tid => (execute_taskflow b tid).2
  | .waitTaskflow tid => (wait_taskflow b tid).2
  | .createAtomspace => (create_atomspace b).2
  | .addAtom sid ty name => (add_atom b sid ty name).2
  | .setAttention aid att => (set_attention b aid att).2
  | .getAttention aid => (get_attention b aid).2
  | .createTensor shape => (create_tensor b shape).2
  | .setTensorData tid data => (set_tensor_data b tid data).2
  | .getTensorData tid => (get_tensor_data b tid).2
  | .taskgraphToTree tid => (taskgraph_to_tree b tid).2
  | .treeToTaskgraph s => (tree_to_taskgraph b s).2

/-- The identifiers handed out by one interface call: the return value of
the calls that execute id = next_id_++ and complete without throwing
(create_taskflow, create_atomspace, add_atom, create_tensor, and
tree_to_taskgraph through its inner create_taskflow). -/
def allocsOf (b : Bridge) : Op → List Nat
  | .createTaskflow => [(create_taskflow b).1]
  | .createAtomspace => [(create_atomspace b).1]
  | .createTensor shape => [(create_tensor b shape).1]
  | .addAtom sid ty name =>
    match (add_atom b sid ty name).1 with
    | .ok id => [id]
    | .error _ => []
  | .treeToTaskgraph s =>
    match (tree_to_taskgraph b s).1 with
    | .ok id => [id]
    | .error _ => []
  | _ => []

/-- All identifiers handed out along a sequence of interface calls, in
allocation order. -/
def allocTrace : Bridge → List Op → List Nat
  | _, [] => []
  | b, op :: ops => allocsOf b op ++ allocTrace (stepOp b op) ops

/-- The bridge state after a sequence of interface calls. -/
def runOps : Bridge → List Op → Bridge
  | b, [] => b
  | b, op :: ops => runOps (stepOp b op) ops

/-- Fixture: a fresh bridge holding taskflow 1 with tasks 0 (named A) and
1 (named B) and no edges yet. -/
def twoNodeBridge : Bridge :=
  (add_task (add_task (create_taskflow initBridge).2 1 0 "A").2 1 1 "B").2

/-- Fixture: a fresh bridge holding taskflow 1 with the single task 0
(named A). -/
def oneNodeBridge : Bridge :=
  (add_task (create_taskflow initBridge).2 1 0 "A").2

/-- Fixture: twoNodeBridge after add_dependency(1, 0, 1), so the edge set
of taskflow 1 is exactly (0, 1). -/
def cycleBridge : Bridge := (add_dependency twoNodeBridge 1 0 1).2

/-- Fixture: a fresh bridge holding taskflow 1 with one task bound to local
id 5 and named X. -/
def dupBridge : Bridge := (add_task (create_taskflow initBridge).2 1 5 "X").2

/-- Association-list lemma: looking up the key just inserted finds the new
value. -/
theorem mapFind_mapInsert_self {α : Type} (m : List (Nat × α)) (k : Nat) (v : α) :
    mapFind (mapInsert m k v) k = some v := by
  induction m with
  | nil => simp [mapInsert, mapFind]
  | cons p rest ih =>
    by_cases h : p.1 = k
    · simp [mapInsert, h, mapFind]
    · simp [mapInsert, h, mapFind, ih]

/-- Association-list lemma: inserting twice under one key keeps only the
second value. -/
theorem mapInsert_mapInsert {α : Type} (m : List (Nat × α)) (k : Nat) (v w : α) :
    mapInsert (mapInsert m k v) k w = mapInsert m k w := by
  induction m with
  | nil => simp [mapInsert]
  | cons p rest ih =>
    by_cases h : p.1 = k
    · simp [mapInsert, h]
    · simp [mapInsert, h, ih]

/-- Association-list lemma: re-inserting the value already found under a key
is the identity. -/
theorem mapInsert_of_found {α : Type} {m : List (Nat × α)} {k : Nat} {v : α}
    (h : mapFind m k = some v) : mapInsert m k v = m := by
  induction m with
  | nil => simp [mapFind] at h
  | cons p rest ih =>
    obtain ⟨pk, pv⟩ := p
    by_cases hk : pk = k
    · subst hk
      simp [mapFind] at h
      simp [mapInsert, h]
    · simp [mapFind, hk] at h
      simp [mapInsert, hk, ih h]

/-- Association-list lemma: inserting an absent key appends the new entry. -/
theorem mapInsert_of_none {α : Type} {m : List (Nat × α)} {k : Nat} (v : α)
    (h : mapFind m k = none) : mapInsert m k v = m ++ [(k, v)] := by
  induction m with
  | nil => simp [mapInsert]
  | cons p rest ih =>
    by_cases hk : p.1 = k
    · simp [mapFind, hk] at h
    · simp [mapFind, hk] at h
      simp [mapInsert, hk, ih h]

/-- Association-list lemma: adjusting a key found with value v equals
inserting the adjusted value. -/
theorem mapAdjust_of_found {α : Type} {m : List (Nat × α)} {k : Nat} {v : α}
    (f : α → α) (h : mapFind m k = some v) :
    mapAdjust m k f = mapInsert m k (f v) := by
  induction m with
  | nil => simp [mapFind] at h
  | cons p rest ih =>
    by_cases hk : p.1 = k
    · simp [mapFind, hk] at h
      simp [mapAdjust, mapInsert, hk, h]
    · simp [mapFind, hk] at h
      simp [mapAdjust, mapInsert, hk, ih h]

/-- Association-list lemma: a lookup that misses the left part of an append
continues in the right part. -/
theorem mapFind_append_of_none {α : Type} {m : List (Nat × α)} {k : Nat}
    (m2 : List (Nat × α)) (h : mapFind m k = none) :
    mapFind (m ++ m2) k = mapFind m2 k := by
  induction m with
  | nil => simp
  | cons p rest ih =>
    by_cases hk : p.1 = k
    · simp [mapFind, hk] at h
    · simp [mapFind, hk] at h ⊢
      exact ih h

/-- Association-list lemma: insertion under one key leaves lookups of other
keys unchanged. -/
theorem mapFind_mapInsert_ne {α : Type} (m : List (Nat × α)) {k k2 : Nat} (v : α)
    (h : k ≠ k2) : mapFind (mapInsert m k v) k2 = mapFind m k2 := by
  induction m with
  | nil => simp [mapInsert, mapFind, h]
  | cons p rest ih =>
    by_cases hk : p.1 = k
    · simp [mapInsert, hk, mapFind, h, hk ▸ h]
    · simp [mapInsert, hk, mapFind, ih]

/-- Association-list lemma: insertion preserves the presence of every key. -/
theorem mapFind_mapInsert_isSome {α : Type} (m : List (Nat × α)) (k k2 : Nat) (v : α)
    (h : (mapFind m k2).isSome) : (mapFind (mapInsert m k v) k2).isSome := by
  by_cases hk : k = k2
  · subst hk
    simp [mapFind_mapInsert_self]
  · rw [mapFind_mapInsert_ne m v hk]
    exact h

/-- Association-list lemma: adjusting one key rewrites its value through the
function and leaves every other lookup unchanged. -/
theorem mapFind_mapAdjust {α : Type} (m : List (Nat × α)) (k k2 : Nat) (f : α → α) :
    mapFind (mapAdjust m k f) k2 =
      if k = k2 then (mapFind m k2).map f else mapFind m k2 := by
  induction m with
  | nil => simp [mapAdjust, mapFind]
  | cons p rest ih =>
    by_cases hk : p.1 = k
    · by_cases hk2 : k = k2
      · simp [mapAdjust, hk, mapFind, hk2, hk2 ▸ hk]
      · have : ¬ p.1 = k2 := by rw [hk]; exact hk2
        simp [mapAdjust, hk, mapFind, hk2, this]
    · by_cases hp : p.1 = k2
      · have h2 : ¬ k2 = k := fun he => hk (by rw [hp, he])
        have h3 : ¬ k = k2 := fun he => h2 he.symm
        simp [mapAdjust, hk, mapFind, hp, h2, h3]
      · simp [mapAdjust, hk, mapFind, hp, ih]

/-- Association-list lemma: adjusting preserves the presence of every key. -/
theorem mapFind_mapAdjust_isSome {α : Type} (m : List (Nat × α)) (k k2 : Nat) (f : α → α)
    (h : (mapFind m k2).isSome) : (mapFind (mapAdjust m k f) k2).isSome := by
  rw [mapFind_mapAdjust]
  by_cases hk : k = k2
  · simp [hk]
    simpa using h
  · simp [hk]
    exact h

/-- Association-list lemma: insertion never shrinks the entry count. -/
theorem length_mapInsert_ge {α : Type} (m : List (Nat × α)) (k : Nat) (v : α) :
    m.length ≤ (mapInsert m k v).length := by
  induction m with
  | nil => simp [mapInsert]
  | cons p rest ih =>
    by_cases hk : p.1 = k
    · simp [mapInsert, hk]
    · simpa [mapInsert, hk] using ih

/-- Association-list lemma: adjusting keeps the entry count. -/
theorem length_mapAdjust {α : Type} (m : List (Nat × α)) (k : Nat) (f : α → α) :
    (mapAdjust m k f).length = m.length := by
  induction m with
  | nil => simp [mapAdjust]
  | cons p rest ih =>
    by_cases hk : p.1 = k
    · simp [mapAdjust, hk]
    · simp [mapAdjust, hk, ih]

/-- Unfolding the successful test of the downward scan. -/
theorem scanParent_succ_pos {s : List Int} {t : Int} {k : Nat}
    (hk : s.getD k 0 = t) : scanParent s t (k + 1) = some k := by
  show (if s.getD k 0 = t then some k else scanParent s t k) = some k
  rw [if_pos hk]

/-- Unfolding the failing test of the downward scan. -/
theorem scanParent_succ_neg {s : List Int} {t : Int} {k : Nat}
    (hk : s.getD k 0 ≠ t) : scanParent s t (k + 1) = scanParent s t k := by
  show (if s.getD k 0 = t then some k else scanParent s t k) = scanParent s t k
  rw [if_neg hk]

/-- The downward scan only returns positions below its start. -/
theorem scanParent_lt {s : List Int} {t : Int} {k j : Nat}
    (h : scanParent s t k = some j) : j < k := by
  induction k with
  | zero => simp [scanParent] at h
  | succ k ih =>
    by_cases hk : s.getD k 0 = t
    · rw [scanParent_succ_pos hk] at h
      injection h with h2
      omega
    · rw [scanParent_succ_neg hk] at h
      exact Nat.lt_succ_of_lt (ih h)

/-- The downward scan only returns positions holding the target level. -/
theorem scanParent_level {s : List Int} {t : Int} {k j : Nat}
    (h : scanParent s t k = some j) : s.getD j 0 = t := by
  induction k with
  | zero => simp [scanParent] at h
  | succ k ih =>
    by_cases hk : s.getD k 0 = t
    · rw [scanParent_succ_pos hk] at h
      injection h with h2
      rw [← h2]; exact hk
    · rw [scanParent_succ_neg hk] at h
      exact ih h

/-- The downward scan returns the largest matching position: everything
strictly between the result and the start misses the target level. -/
theorem scanParent_greatest {s : List Int} {t : Int} {k j : Nat}
    (h : scanParent s t k = some j) :
    ∀ j2, j < j2 → j2 < k → s.getD j2 0 ≠ t := by
  induction k with
  | zero => simp [scanParent] at h
  | succ k ih =>
    by_cases hk : s.getD k 0 = t
    · rw [scanParent_succ_pos hk] at h
      injection h with h2
      intro j2 h1 h2b
      omega
    · rw [scanParent_succ_neg hk] at h
      intro j2 h1 h2
      rcases Nat.lt_succ_iff_lt_or_eq.mp h2 with h3 | h3
      · exact ih h j2 h1 h3
      · rw [h3]; exact hk

/-- The downward scan fails exactly when no position below the start holds
the target level. -/
theorem scanParent_eq_none {s : List Int} {t : Int} {k : Nat} :
    scanParent s t k = none ↔ ∀ j, j < k → s.getD j 0 ≠ t := by
  induction k with
  | zero => simp [scanParent]
  | succ k ih =>
    by_cases hk : s.getD k 0 = t
    · rw [scanParent_succ_pos hk]
      constructor
      · intro h
        simp at h
      · intro h
        exact absurd hk (h k (Nat.lt_succ_self k))
    · rw [scanParent_succ_neg hk, ih]
      constructor
      · intro h j hj
        rcases Nat.lt_succ_iff_lt_or_eq.mp hj with h3 | h3
        · exact h j h3
        · rw [h3]; exact hk
      · intro h j hj
        exact h j (Nat.lt_succ_of_lt hj)

/-- The downward scan succeeds when some position below the start holds the
target level. -/
theorem scanParent_isSome {s : List Int} {t : Int} {k : Nat}
    (h : ∃ j, j < k ∧ s.getD j 0 = t) : (scanParent s t k).isSome := by
  rcases hs : scanParent s t k with _ | j
  · rcases h with ⟨j, hj, hlev⟩
    exact absurd hlev (scanParent_eq_none.mp hs j hj)
  · simp

/-- Lookup in the identity handle map built over a contiguous index range. -/
theorem mapFind_range_pairs (k : Nat) :
    ∀ (a y : Nat), a ≤ y → y < a + k →
      mapFind ((List.range' a k).map (fun i => (i, i))) y = some y := by
  induction k with
  | zero =>
    intro a y h1 h2
    omega
  | succ k ih =>
    intro a y h1 h2
    rw [List.range'_succ]
    by_cases hy : a = y
    · simp [mapFind, hy]
    · simp only [List.map_cons, mapFind, hy, if_neg hy]
      exact ih (a + 1) y (by omega) (by omega)

/-- Invariant of the task-creation loop of tree_to_taskgraph: starting from
a bridge whose taskflow under the target id has a tasks, the loop over
indices a, a+1, ... appends one task and one identity handle binding per
index and never throws. -/
theorem runTasksLoop_spec (tid : Nat) (k : Nat) :
    ∀ (a : Nat) (b : Bridge) (tf : Taskflow) (hs : List (Nat × Nat)),
      mapFind b.taskflows tid = some tf →
      mapFind b.taskHandles tid = some hs →
      tf.tasks.length = a →
      (∀ i, a ≤ i → mapFind hs i = none) →
      runTasksLoop tid (List.range' a k) b =
        (.ok (), { b with
          taskflows := mapInsert b.taskflows tid
            { tf with tasks := tf.tasks ++ (List.range' a k).map (fun i => "task_" ++ toString i) },
          taskHandles := mapInsert b.taskHandles tid
            (hs ++ (List.range' a k).map (fun i => (i, i))) }) := by
  induction k with
  | zero =>
    intro a b tf hs h1 h2 h3 h4
    obtain ⟨tks, eds⟩ := tf
    simp only [List.range', List.map_nil, List.append_nil]
    rw [mapInsert_of_found h1, mapInsert_of_found h2]
    rfl
  | succ k ih =>
    intro a b tf hs h1 h2 h3 h4
    obtain ⟨tks, eds⟩ := tf
    simp only [Taskflow.mk.injEq] at h3
    rw [List.range'_succ]
    have hga : mapGetD b.taskHandles tid [] = hs := by simp [mapGetD, h2]
    have hia : mapInsert (mapGetD b.taskHandles tid []) a tks.length = hs ++ [(a, a)] := by
      rw [hga]
      have h3b : tks.length = a := h3
      rw [h3b]
      exact mapInsert_of_none a (h4 a (Nat.le_refl a))
    have hadd : add_task b tid a ("task_" ++ toString a) =
        (.ok (), { b with
          taskflows := mapInsert b.taskflows tid
            { tasks := tks ++ ["task_" ++ toString a], edges := eds },
          taskHandles := mapInsert b.taskHandles tid (hs ++ [(a, a)]) }) := by
      simp only [add_task, h1, hia]
    have hfresh : ∀ i, a + 1 ≤ i → mapFind (hs ++ [(a, a)]) i = none := by
      intro i hi
      rw [mapFind_append_of_none _ (h4 i (by omega))]
      have : ¬ a = i := by omega
      simp [mapFind, this]
    have hrec := ih (a + 1)
      { b with
        taskflows := mapInsert b.taskflows tid
          { tasks := tks ++ ["task_" ++ toString a], edges := eds },
        taskHandles := mapInsert b.taskHandles tid (hs ++ [(a, a)]) }
      { tasks := tks ++ ["task_" ++ toString a], edges := eds }
      (hs ++ [(a, a)])
      (mapFind_mapInsert_self ..) (mapFind_mapInsert_self ..)
      (by simp [h3]) hfresh
    simp only [runTasksLoop, hadd, hrec, mapInsert_mapInsert, List.map_cons,
      List.append_assoc, List.singleton_append]

/-- Invariant of the dependency loop of tree_to_taskgraph: with the identity
handle map in place, the loop appends one edge per index whose parent scan
succeeds, silently skips the others, and never throws. -/
theorem runDepsLoop_spec (tid : Nat) (s : List Int) (l : List Nat) :
    ∀ (b : Bridge) (tf : Taskflow) (hs : List (Nat × Nat)),
      mapFind b.taskflows tid = some tf →
      mapFind b.taskHandles tid = some hs →
      (∀ i, i ∈ l → ∀ j, j ≤ i → mapFind hs j = some j) →
      runDepsLoop tid s l b =
        (.ok (), { b with
          taskflows := mapInsert b.taskflows tid
            { tf with edges := tf.edges ++
                l.filterMap (fun i => (findParent s i).map (fun j => (j, i))) } }) := by
  induction l with
  | nil =>
    intro b tf hs h1 h2 hmem
    obtain ⟨tks, eds⟩ := tf
    simp only [runDepsLoop, List.filterMap_nil, List.append_nil]
    rw [mapInsert_of_found h1]
  | cons i rest ih =>
    intro b tf hs h1 h2 hmem
    obtain ⟨tks, eds⟩ := tf
    rcases hfp : findParent s i with _ | j
    · have hrec := ih b ⟨tks, eds⟩ hs h1 h2
        (fun i2 hi2 => hmem i2 (List.mem_cons_of_mem i hi2))
      simp only [runDepsLoop, hfp, hrec, List.filterMap_cons, Option.map_none']
    · have hj : j < i := scanParent_lt hfp
      have hfj : mapFind hs j = some j :=
        hmem i (List.mem_cons_self i rest) j (Nat.le_of_lt hj)
      have hfi : mapFind hs i = some i :=
        hmem i (List.mem_cons_self i rest) i (Nat.le_refl i)
      have hadd : add_dependency b tid j i =
          (.ok (), { b with
            taskflows := mapInsert b.taskflows tid
              { tasks := tks, edges := eds ++ [(j, i)] } }) := by
        simp only [add_dependency, h2, hfj, hfi]
        rw [mapAdjust_of_found _ h1]
      have hrec := ih
        { b with
          taskflows := mapInsert b.taskflows tid { tasks := tks, edges := eds ++ [(j, i)] } }
        { tasks := tks, edges := eds ++ [(j, i)] } hs
        (mapFind_mapInsert_self ..) h2
        (fun i2 hi2 => hmem i2 (List.mem_cons_of_mem i hi2))
      simp only [runDepsLoop, hfp, hadd, hrec, mapInsert_mapInsert, List.filterMap_cons,
        Option.map_some', List.append_assoc, List.singleton_append]

/-- Closed form of tree_to_taskgraph: from every bridge state it succeeds,
returns the current next_id_, and binds under it the taskflow with one task
per sequence element, identity handle bindings, and the scanned parent
edges. -/
theorem tree_to_taskgraph_spec (b : Bridge) (s : List Int) :
    tree_to_taskgraph b s = (.ok b.nextId, decodeState b s) := by
  have hTasks : runTasksLoop b.nextId (List.range' 0 s.length)
      { b with
        nextId := b.nextId + 1,
        taskflows := mapInsert b.taskflows b.nextId { tasks := [], edges := [] },
        taskHandles := mapInsert b.taskHandles b.nextId [] } =
      (.ok (), { b with
        nextId := b.nextId + 1,
        taskflows := mapInsert (mapInsert b.taskflows b.nextId { tasks := [], edges := [] }) b.nextId
          { tasks := (List.range' 0 s.length).map (fun i => "task_" ++ toString i), edges := [] },
        taskHandles := mapInsert (mapInsert b.taskHandles b.nextId []) b.nextId
          ((List.range' 0 s.length).map (fun i => (i, i))) }) :=
    runTasksLoop_spec b.nextId s.length 0
      { b with
        nextId := b.nextId + 1,
        taskflows := mapInsert b.taskflows b.nextId { tasks := [], edges := [] },
        taskHandles := mapInsert b.taskHandles b.nextId [] }
      { tasks := [], edges := [] } []
      (mapFind_mapInsert_self ..) (mapFind_mapInsert_self ..)
      rfl (fun i _ => rfl)
  rw [mapInsert_mapInsert, mapInsert_mapInsert] at hTasks
  have hmem2 : ∀ i, i ∈ List.range' 1 (s.length - 1) → ∀ j, j ≤ i →
      mapFind ((List.range' 0 s.length).map (fun i => (i, i))) j = some j := by
    intro i hi j hj
    have hi2 := List.mem_range'_1.mp hi
    exact mapFind_range_pairs s.length 0 j (Nat.zero_le j) (by omega)
  have hDeps : runDepsLoop b.nextId s (List.range' 1 (s.length - 1))
      { b with
        nextId := b.nextId + 1,
        taskflows := mapInsert b.taskflows b.nextId
          { tasks := (List.range' 0 s.length).map (fun i => "task_" ++ toString i), edges := [] },
        taskHandles := mapInsert b.taskHandles b.nextId
          ((List.range' 0 s.length).map (fun i => (i, i))) } =
      (.ok (), { b with
        nextId := b.nextId + 1,
        taskflows := mapInsert (mapInsert b.taskflows b.nextId
            { tasks := (List.range' 0 s.length).map (fun i => "task_" ++ toString i), edges := [] }) b.nextId
          { tasks := (List.range' 0 s.length).map (fun i => "task_" ++ toString i),
            edges := (List.range' 1 (s.length - 1)).filterMap
              (fun i => (findParent s i).map (fun j => (j, i))) },
        taskHandles := mapInsert b.taskHandles b.nextId
          ((List.range' 0 s.length).map (fun i => (i, i))) }) :=
    runDepsLoop_spec b.nextId s (List.range' 1 (s.length - 1))
      { b with
        nextId := b.nextId + 1,
        taskflows := mapInsert b.taskflows b.nextId
          { tasks := (List.range' 0 s.length).map (fun i => "task_" ++ toString i), edges := [] },
        taskHandles := mapInsert b.taskHandles b.nextId
          ((List.range' 0 s.length).map (fun i => (i, i))) }
      { tasks := (List.range' 0 s.length).map (fun i => "task_" ++ toString i), edges := [] }
      ((List.range' 0 s.length).map (fun i => (i, i)))
      (mapFind_mapInsert_self ..) (mapFind_mapInsert_self ..) hmem2
  rw [mapInsert_mapInsert] at hDeps
  simp only [tree_to_taskgraph, create_taskflow, hTasks, hDeps, decodeState, taskNames,
    decodeHandles, decodeEdges]

/-- Each interface call either allocates nothing and keeps next_id_, or
returns exactly the current next_id_ and advances it by one. -/
theorem stepOp_alloc_cases (b : Bridge) (op : Op) :
    (allocsOf b op = [] ∧ (stepOp b op).nextId = b.nextId) ∨
    (allocsOf b op = [b.nextId] ∧ (stepOp b op).nextId = b.nextId + 1) := by
  cases op with
  | createTaskflow => right; exact ⟨rfl, rfl⟩
  | addTask tid k name =>
    left
    rcases h : mapFind b.taskflows tid with _ | tf <;>
      simp [allocsOf, stepOp, add_task, h]
  | addDependency tid f t =>
    left
    rcases h : mapFind b.taskHandles tid with _ | hs
    · simp [allocsOf, stepOp, add_dependency, h]
    · rcases hf : mapFind hs f with _ | rf <;> rcases ht : mapFind hs t with _ | rt <;>
        simp [allocsOf, stepOp, add_dependency, h, hf, ht]
  | executeTaskflow tid =>
    left
    rcases h : mapFind b.taskflows tid with _ | tf <;>
      simp [allocsOf, stepOp, execute_taskflow, h]
  | waitTaskflow tid => left; exact ⟨rfl, rfl⟩
  | createAtomspace => right; exact ⟨rfl, rfl⟩
  | addAtom sid ty name =>
    rcases h : mapFind b.atomspaces sid with _ | u
    · left; simp [allocsOf, stepOp, add_atom, h]
    · right; simp [allocsOf, stepOp, add_atom, h]
  | setAttention aid att =>
    left
    rcases h : mapFind b.atoms aid with _ | a <;>
      simp [allocsOf, stepOp, set_attention, h]
  | getAttention aid =>
    left
    rcases h : mapFind b.atoms aid with _ | a <;>
      simp [allocsOf, stepOp, get_attention, h]
  | createTensor shape => right; exact ⟨rfl, rfl⟩
  | setTensorData tid data =>
    left
    rcases h : mapFind b.tensors tid with _ | t
    · simp [allocsOf, stepOp, set_tensor_data, h]
    · by_cases hl : data.length ≠ t.data.length <;>
        simp [allocsOf, stepOp, set_tensor_data, h, hl]
  | getTensorData tid =>
    left
    rcases h : mapFind b.tensors tid with _ | t <;>
      simp [allocsOf, stepOp, get_tensor_data, h]
  | taskgraphToTree tid =>
    left
    rcases h : mapFind b.taskHandles tid with _ | hs <;>
      simp [allocsOf, stepOp, taskgraph_to_tree, h]
  | treeToTaskgraph s =>
    right
    simp [allocsOf, stepOp, tree_to_taskgraph_spec, decodeState]

/-- Along any call sequence the allocated identifiers are strictly
increasing and all at least the starting next_id_. -/
theorem allocTrace_pairwise (ops : List Op) :
    ∀ b, List.Pairwise (· < ·) (allocTrace b ops) ∧
      ∀ x, x ∈ allocTrace b ops → b.nextId ≤ x := by
  induction ops with
  | nil =>
    intro b
    simp [allocTrace]
  | cons op ops ih =>
    intro b
    rcases stepOp_alloc_cases b op with ⟨he, hn⟩ | ⟨he, hn⟩
    · have h2 := ih (stepOp b op)
      simp only [allocTrace, he, List.nil_append]
      refine ⟨h2.1, fun x hx => ?_⟩
      have h3 := h2.2 x hx
      omega
    · have h2 := ih (stepOp b op)
      simp only [allocTrace, he, List.singleton_append]
      constructor
      · refine List.pairwise_cons.mpr ⟨fun y hy => ?_, h2.1⟩
        have h3 := h2.2 y hy
        omega
      · intro x hx
        rcases List.mem_cons.mp hx with h3 | h3
        · omega
        · have h4 := h2.2 x h3
          omega

/-- The first identifier handed out along any call sequence is the starting
next_id_ (calls before the first allocation do not advance the counter). -/
theorem allocTrace_head (ops : List Op) :
    ∀ b x, (allocTrace b ops).head? = some x → x = b.nextId := by
  induction ops with
  | nil =>
    intro b x h
    simp [allocTrace] at h
  | cons op ops ih =>
    intro b x h
    rcases stepOp_alloc_cases b op with ⟨he, hn⟩ | ⟨he, hn⟩
    · simp only [allocTrace, he, List.nil_append] at h
      rw [ih (stepOp b op) x h, hn]
    · simp only [allocTrace, he, List.singleton_append, List.head?_cons,
        Option.some.injEq] at h
      omega

/-- One interface call never unbinds a key of any registry and never
shrinks any registry. -/
theorem stepOp_preserves (b : Bridge) (op : Op) :
    (∀ k, (mapFind b.taskflows k).isSome → (mapFind (stepOp b op).taskflows k).isSome) ∧
    (∀ k, (mapFind b.taskHandles k).isSome → (mapFind (stepOp b op).taskHandles k).isSome) ∧
    (∀ k, (mapFind b.atomspaces k).isSome → (mapFind (stepOp b op).atomspaces k).isSome) ∧
    (∀ k, (mapFind b.atoms k).isSome → (mapFind (stepOp b op).atoms k).isSome) ∧
    (∀ k, (mapFind b.tensors k).isSome → (mapFind (stepOp b op).tensors k).isSome) ∧
    b.taskflows.length ≤ (stepOp b op).taskflows.length ∧
    b.atomspaces.length ≤ (stepOp b op).atomspaces.length ∧
    b.tensors.length ≤ (stepOp b op).tensors.length := by
  cases op with
  | createTaskflow =>
    exact ⟨fun k h => mapFind_mapInsert_isSome _ _ _ _ h,
      fun k h => mapFind_mapInsert_isSome _ _ _ _ h,
      fun k h => h, fun k h => h, fun k h => h,
      length_mapInsert_ge _ _ _, Nat.le_refl _, Nat.le_refl _⟩
  | addTask tid k2 name =>
    rcases h : mapFind b.taskflows tid with _ | tf
    · simp only [stepOp, add_task, h]
      exact ⟨fun k h => h, fun k h => h, fun k h => h, fun k h => h, fun k h => h,
        Nat.le_refl _, Nat.le_refl _, Nat.le_refl _⟩
    · simp only [stepOp, add_task, h]
      exact ⟨fun k h => mapFind_mapInsert_isSome _ _ _ _ h,
        fun k h => mapFind_mapInsert_isSome _ _ _ _ h,
        fun k h => h, fun k h => h, fun k h => h,
        length_mapInsert_ge _ _ _, Nat.le_refl _, Nat.le_refl _⟩
  | addDependency tid f t =>
    rcases h : mapFind b.taskHandles tid with _ | hs
    · simp only [stepOp, add_dependency, h]
      exact ⟨fun k h => h, fun k h => h, fun k h => h, fun k h => h, fun k h => h,
        Nat.le_refl _, Nat.le_refl _, Nat.le_refl _⟩
    · rcases hf : mapFind hs f with _ | rf <;> rcases ht : mapFind hs t with _ | rt <;>
        simp only [stepOp, add_dependency, h, hf, ht] <;>
        refine ⟨fun k h => ?_, fun k h => h, fun k h => h, fun k h => h, fun k h => h,
          ?_, Nat.le_refl _, Nat.le_refl _⟩ <;>
        first
          | exact h
          | exact mapFind_mapAdjust_isSome _ _ _ _ h
          | exact Nat.le_refl _
          | exact Nat.le_of_eq (length_mapAdjust _ _ _).symm
  | executeTaskflow tid =>
    rcases h : mapFind b.taskflows tid with _ | tf <;>
      simp only [stepOp, execute_taskflow, h] <;>
      exact ⟨fun k h => h, fun k h => h, fun k h => h, fun k h => h, fun k h => h,
        Nat.le_refl _, Nat.le_refl _, Nat.le_refl _⟩
  | waitTaskflow tid =>
    exact ⟨fun k h => h, fun k h => h, fun k h => h, fun k h => h, fun k h => h,
      Nat.le_refl _, Nat.le_refl _, Nat.le_refl _⟩
  | createAtomspace =>
    exact ⟨fun k h => h, fun k h => h, fun k h => mapFind_mapInsert_isSome _ _ _ _ h,
      fun k h => h, fun k h => h,
      Nat.le_refl _, length_mapInsert_ge _ _ _, Nat.le_refl _⟩
  | addAtom sid ty name =>
    rcases h : mapFind b.atomspaces sid with _ | u <;>
      simp only [stepOp, add_atom, h] <;>
      refine ⟨fun k h => h, fun k h => h, fun k h => h, fun k h => ?_, fun k h => h,
        Nat.le_refl _, Nat.le_refl _, Nat.le_refl _⟩ <;>
      first
        | exact h
        | exact mapFind_mapInsert_isSome _ _ _ _ h
  | setAttention aid att =>
    rcases h : mapFind b.atoms aid with _ | a <;>
      simp only [stepOp, set_attention, h] <;>
      refine ⟨fun k h => h, fun k h => h, fun k h => h, fun k h => ?_, fun k h => h,
        Nat.le_refl _, Nat.le_refl _, Nat.le_refl _⟩ <;>
      first
        | exact h
        | exact mapFind_mapAdjust_isSome _ _ _ _ h
  | getAttention aid =>
    rcases h : mapFind b.atoms aid with _ | a <;>
      simp only [stepOp, get_attention, h] <;>
      exact ⟨fun k h => h, fun k h => h, fun k h => h, fun k h => h, fun k h => h,
        Nat.le_refl _, Nat.le_refl _, Nat.le_refl _⟩
  | createTensor shape =>
    exact ⟨fun k h => h, fun k h => h, fun k h => h, fun k h => h,
      fun k h => mapFind_mapInsert_isSome _ _ _ _ h,
      Nat.le_refl _, Nat.le_refl _, length_mapInsert_ge _ _ _⟩
  | setTensorData tid data =>
    rcases h : mapFind b.tensors tid with _ | t
    · simp only [stepOp, set_tensor_data, h]
      exact ⟨fun k h => h, fun k h => h, fun k h => h, fun k h => h, fun k h => h,
        Nat.le_refl _, Nat.le_refl _, Nat.le_refl _⟩
    · by_cases hl : data.length ≠ t.data.length
      · simp only [stepOp, set_tensor_data, h, if_pos hl]
        exact ⟨fun k h => h, fun k h => h, fun k h => h, fun k h => h, fun k h => h,
          Nat.le_refl _, Nat.le_refl _, Nat.le_refl _⟩
      · simp only [stepOp, set_tensor_data, h, if_neg hl]
        exact ⟨fun k h => h, fun k h => h, fun k h => h, fun k h => h,
          fun k h => mapFind_mapAdjust_isSome _ _ _ _ h,
          Nat.le_refl _, Nat.le_refl _, Nat.le_of_eq (length_mapAdjust _ _ _).symm⟩
  | getTensorData tid =>
    rcases h : mapFind b.tensors tid with _ | t <;>
      simp only [stepOp, get_tensor_data, h] <;>
      exact ⟨fun k h => h, fun k h => h, fun k h => h, fun k h => h, fun k h => h,
        Nat.le_refl _, Nat.le_refl _, Nat.le_refl _⟩
  | taskgraphToTree tid =>
    rcases h : mapFind b.taskHandles tid with _ | hs <;>
      simp only [stepOp, taskgraph_to_tree, h] <;>
      exact ⟨fun k h => h, fun k h => h, fun k h => h, fun k h => h, fun k h => h,
        Nat.le_refl _, Nat.le_refl _, Nat.le_refl _⟩
  | treeToTaskgraph s =>
    simp only [stepOp, tree_to_taskgraph_spec, decodeState]
    exact ⟨fun k h => mapFind_mapInsert_isSome _ _ _ _ h,
      fun k h => mapFind_mapInsert_isSome _ _ _ _ h,
      fun k h => h, fun k h => h, fun k h => h,
      length_mapInsert_ge _ _ _, Nat.le_refl _, Nat.le_refl _⟩

/-- Every element of a filterMap whose function succeeds everywhere counts:
the lengths agree. -/
theorem filterMap_length_all {α β : Type} (f : α → Option β) :
    ∀ l : List α, (∀ x, x ∈ l → (f x).isSome) → (l.filterMap f).length = l.length := by
  intro l
  induction l with
  | nil => intro h; simp
  | cons a rest ih =>
    intro h
    have ha := h a (List.mem_cons_self a rest)
    rcases hfa : f a with _ | y
    · rw [hfa] at ha; simp at ha
    · simp only [List.filterMap_cons, hfa, List.length_cons]
      rw [ih (fun x hx => h x (List.mem_cons_of_mem a hx))]

/-- Claim C1 (code_bug evidence): decoding the level sequence 0,1,1,2 builds
the expected tree (node 0 parent of 1 and 2, node 2 parent of 3), but
re-encoding that graph with taskgraph_to_tree returns the empty sequence,
not 0,1,1,2: the encoder is a stub and the round trip fails. -/
theorem C1_roundtrip_broken :
    (tree_to_taskgraph initBridge [0, 1, 1, 2]).1 = .ok 1 ∧
    mapFind ((tree_to_taskgraph initBridge [0, 1, 1, 2]).2).taskflows 1 =
      some { tasks := ["task_0", "task_1", "task_2", "task_3"],
             edges := [(0, 1), (0, 2), (2, 3)] } ∧
    (taskgraph_to_tree (tree_to_taskgraph initBridge [0, 1, 1, 2]).2 1).1 = ([] : List Int) ∧
    ([] : List Int) ≠ [0, 1, 1, 2] := ⟨rfl, rfl, rfl, by decide⟩

/-- Claim C2: for every level sequence in which every position i of at least
1 has some earlier position one level shallower, tree_to_taskgraph returns
the fresh handle, creates one task per element with local id equal to its
position, and adds exactly one dependency edge into each node i of at least
1, from the rightmost preceding position j with s j = s i - 1; node 0
receives no in-edge. -/
theorem C2_decoder_wiring (b : Bridge) (s : List Int)
    (hwf : ∀ i, i < s.length → 1 ≤ i → ∃ j, j < i ∧ s.getD j 0 = s.getD i 0 - 1) :
    (tree_to_taskgraph b s).1 = .ok b.nextId ∧
    ∃ tf handles,
      mapFind ((tree_to_taskgraph b s).2).taskflows b.nextId = some tf ∧
      mapFind ((tree_to_taskgraph b s).2).taskHandles b.nextId = some handles ∧
      tf.tasks.length = s.length ∧
      (∀ i, i < s.length → mapFind handles i = some i) ∧
      tf.edges.length = s.length - 1 ∧
      (∀ i, 1 ≤ i → i < s.length →
        ∃ j, (j, i) ∈ tf.edges ∧
          (∀ j2, (j2, i) ∈ tf.edges → j2 = j) ∧
          j < i ∧ s.getD j 0 = s.getD i 0 - 1 ∧
          (∀ j2, j < j2 → j2 < i → s.getD j2 0 ≠ s.getD i 0 - 1)) ∧
      (∀ j, (j, 0) ∉ tf.edges) := by
  rw [tree_to_taskgraph_spec]
  refine ⟨rfl, { tasks := taskNames s.length, edges := decodeEdges s }, decodeHandles s.length,
    mapFind_mapInsert_self _ _ _, mapFind_mapInsert_self _ _ _, ?_, ?_, ?_, ?_, ?_⟩
  · simp [taskNames]
  · intro i hi
    have h2 := mapFind_range_pairs s.length 0 i (Nat.zero_le i) (by omega)
    simpa [decodeHandles] using h2
  · have hall : ∀ x, x ∈ List.range' 1 (s.length - 1) →
        ((findParent s x).map (fun j => (j, x))).isSome := by
      intro x hx
      have hx2 := List.mem_range'_1.mp hx
      have hex := hwf x (by omega) (by omega)
      have hsome : (findParent s x).isSome := scanParent_isSome hex
      rcases ho : findParent s x with _ | j
      · rw [ho] at hsome; simp at hsome
      · simp
    have hlen := filterMap_length_all (fun i => (findParent s i).map (fun j => (j, i)))
      (List.range' 1 (s.length - 1)) hall
    simpa [decodeEdges] using hlen
  · intro i h1 h2
    have hex := hwf i h2 h1
    have hsome : (findParent s i).isSome := scanParent_isSome hex
    rcases ho : findParent s i with _ | j
    · rw [ho] at hsome; simp at hsome
    · refine ⟨j, ?_, ?_, scanParent_lt ho, scanParent_level ho, scanParent_greatest ho⟩
      · refine List.mem_filterMap.mpr ⟨i, List.mem_range'_1.mpr ⟨h1, by omega⟩, ?_⟩
        rw [ho]
        rfl
      · intro j2 hj2
        rcases List.mem_filterMap.mp hj2 with ⟨i2, hi2, heq⟩
        rcases hfi2 : findParent s i2 with _ | j3
        · rw [hfi2] at heq; simp at heq
        · rw [hfi2] at heq
          simp only [Option.map_some', Option.some.injEq, Prod.mk.injEq] at heq
          rcases heq with ⟨he1, he2⟩
          rw [he2] at hfi2
          rw [ho] at hfi2
          injection hfi2 with he3
          omega
  · intro j hj
    rcases List.mem_filterMap.mp hj with ⟨i2, hi2, heq⟩
    rcases hfi2 : findParent s i2 with _ | j3
    · rw [hfi2] at heq; simp at heq
    · rw [hfi2] at heq
      simp only [Option.map_some', Option.some.injEq, Prod.mk.injEq] at heq
      have hz := List.mem_range'_1.mp hi2
      omega

/-- Claim C2 witness: the level sequence 0,1,1,2 satisfies the parent
existence condition and the decoder theorem applies to it. -/
theorem C2_decoder_wiring_witness :
    (∀ i, i < ([0, 1, 1, 2] : List Int).length → 1 ≤ i →
      ∃ j, j < i ∧ ([0, 1, 1, 2] : List Int).getD j 0 = ([0, 1, 1, 2] : List Int).getD i 0 - 1) ∧
    ((tree_to_taskgraph initBridge [0, 1, 1, 2]).1 = .ok 1 ∧
     ∃ tf handles,
       mapFind ((tree_to_taskgraph initBridge [0, 1, 1, 2]).2).taskflows 1 = some tf ∧
       mapFind ((tree_to_taskgraph initBridge [0, 1, 1, 2]).2).taskHandles 1 = some handles ∧
       tf.tasks.length = ([0, 1, 1, 2] : List Int).length ∧
       (∀ i, i < ([0, 1, 1, 2] : List Int).length → mapFind handles i = some i) ∧
       tf.edges.length = ([0, 1, 1, 2] : List Int).length - 1 ∧
       (∀ i, 1 ≤ i → i < ([0, 1, 1, 2] : List Int).length →
         ∃ j, (j, i) ∈ tf.edges ∧
           (∀ j2, (j2, i) ∈ tf.edges → j2 = j) ∧
           j < i ∧ ([0, 1, 1, 2] : List Int).getD j 0 = ([0, 1, 1, 2] : List Int).getD i 0 - 1 ∧
           (∀ j2, j < j2 → j2 < i →
             ([0, 1, 1, 2] : List Int).getD j2 0 ≠ ([0, 1, 1, 2] : List Int).getD i 0 - 1)) ∧
       (∀ j, (j, 0) ∉ tf.edges)) :=
  ⟨by decide, C2_decoder_wiring initBridge [0, 1, 1, 2] (by decide)⟩

/-- Claim C3 (code_bug evidence): on the graph with tasks 0, 1 and the edge
0 to 1, the call add_dependency(1, 1, 0) — which closes a cycle — returns
success and appends the back edge instead of failing with a cycle error and
leaving the edge set unchanged. -/
theorem C3_cycle_inserted :
    mapFind cycleBridge.taskflows 1 = some { tasks := ["A", "B"], edges := [(0, 1)] } ∧
    (add_dependency cycleBridge 1 1 0).1 = .ok () ∧
    mapFind ((add_dependency cycleBridge 1 1 0).2).taskflows 1 =
      some { tasks := ["A", "B"], edges := [(0, 1), (1, 0)] } := ⟨rfl, rfl, rfl⟩

/-- Claim C4: along every sequence of interface calls starting from a fresh
bridge, the allocated identifiers are strictly increasing in allocation
order, pairwise distinct (never reused), and the first one handed out is 1. -/
theorem C4_identifier_allocation (ops : List Op) :
    List.Pairwise (· < ·) (allocTrace initBridge ops) ∧
    (allocTrace initBridge ops).Nodup ∧
    (∀ x, (allocTrace initBridge ops).head? = some x → x = 1) := by
  have h := allocTrace_pairwise ops initBridge
  refine ⟨h.1, h.1.imp ?_, ?_⟩
  · intro a b hab
    exact Nat.ne_of_lt hab
  · intro x hx
    exact allocTrace_head ops initBridge x hx

/-- Claim C4 witness: a concrete call sequence allocating through all four
allocating operations yields exactly 1, 2, 3, 4. -/
theorem C4_identifier_allocation_witness :
    allocTrace initBridge
      [Op.createTaskflow, Op.createAtomspace, Op.addAtom 2 0 "c", Op.createTensor [2, 2]] =
      [1, 2, 3, 4] ∧
    List.Pairwise (· < ·) (allocTrace initBridge
      [Op.createTaskflow, Op.createAtomspace, Op.addAtom 2 0 "c", Op.createTensor [2, 2]]) ∧
    (allocTrace initBridge
      [Op.createTaskflow, Op.createAtomspace, Op.addAtom 2 0 "c", Op.createTensor [2, 2]]).Nodup ∧
    (∀ x, (allocTrace initBridge
      [Op.createTaskflow, Op.createAtomspace, Op.addAtom 2 0 "c", Op.createTensor [2, 2]]).head? =
        some x → x = 1) :=
  ⟨by rfl, (C4_identifier_allocation _).1, (C4_identifier_allocation _).2.1,
    (C4_identifier_allocation _).2.2⟩

/-- Claim C5: add_dependency fails with the taskflow-not-found error when
the graph id is unbound, fails with the task-not-found error when either
endpoint is unbound in the graph, and otherwise succeeds and appends the
edge between the two resolved tasks to the graph, in each case leaving
every other part of the state unchanged. -/
theorem C5_add_dependency_cases (b : Bridge) (taskflow_id from_task to_task : Nat) :
    (mapFind b.taskHandles taskflow_id = none →
      add_dependency b taskflow_id from_task to_task = (.error .taskflowNotFound, b)) ∧
    (∀ hs, mapFind b.taskHandles taskflow_id = some hs →
      ((mapFind hs from_task = none ∨ mapFind hs to_task = none) →
        add_dependency b taskflow_id from_task to_task = (.error .taskNotFound, b)) ∧
      (∀ rf rt, mapFind hs from_task = some rf → mapFind hs to_task = some rt →
        add_dependency b taskflow_id from_task to_task =
          (.ok (), { b with taskflows := mapAdjust b.taskflows taskflow_id (fun tf => { tf with edges := tf.edges ++ [(rf, rt)] }) }))) := by
  constructor
  · intro h
    simp [add_dependency, h]
  · intro hs hfind
    constructor
    · intro hor
      rcases hor with h1 | h1
      · rcases h2 : mapFind hs to_task with _ | rt <;>
          simp [add_dependency, hfind, h1, h2]
      · rcases h2 : mapFind hs from_task with _ | rf <;>
          simp [add_dependency, hfind, h1, h2]
    · intro rf rt h1 h2
      simp [add_dependency, hfind, h1, h2]

/-- Claim C5 witness: on the two-task fixture, wiring task 0 before task 1
succeeds and appends exactly the edge between their resolved handles. -/
theorem C5_add_dependency_cases_witness :
    add_dependency twoNodeBridge 1 0 1 =
      (.ok (), { twoNodeBridge with taskflows := mapAdjust twoNodeBridge.taskflows 1 (fun tf => { tf with edges := tf.edges ++ [(0, 1)] }) }) :=
  ((C5_add_dependency_cases twoNodeBridge 1 0 1).2 [(0, 0), (1, 1)] rfl).2 0 1 rfl rfl

/-- Claim C6 (code_bug evidence): after add_task(1, 5, X), the duplicate
call add_task(1, 5, Y) succeeds instead of failing with a duplicate error:
it emplaces a second task and rebinds local id 5 to the new task named Y,
leaving the old task named X orphaned in the taskflow. -/
theorem C6_duplicate_overwrites :
    mapFind (mapGetD dupBridge.taskHandles 1 []) 5 = some 0 ∧
    mapFind dupBridge.taskflows 1 = some { tasks := ["X"], edges := [] } ∧
    (add_task dupBridge 1 5 "Y").1 = .ok () ∧
    mapFind (mapGetD ((add_task dupBridge 1 5 "Y").2).taskHandles 1 []) 5 = some 1 ∧
    mapFind ((add_task dupBridge 1 5 "Y").2).taskflows 1 =
      some { tasks := ["X", "Y"], edges := [] } := ⟨rfl, rfl, rfl, rfl, rfl⟩

/-- Claim C7 counterexample: decoding the single-element sequence 2 does not
fail with a malformed-sequence error; it succeeds and returns handle 1
bound to a one-task, zero-edge graph. -/
theorem C7_counterexample :
    (tree_to_taskgraph initBridge [2]).1 = .ok 1 ∧
    mapFind ((tree_to_taskgraph initBridge [2]).2).taskflows 1 =
      some { tasks := ["task_0"], edges := [] } := ⟨rfl, rfl⟩

/-- Claim C7 amended: tree_to_taskgraph never rejects a malformed sequence
(no malformed-sequence error exists in the bridge); it always succeeds, and
a position with no earlier position one level shallower simply receives no
in-edge. -/
theorem C7_no_malformed_failure (b : Bridge) (s : List Int) (i : Nat)
    (hi : i < s.length)
    (hnoj : ∀ j, j < i → s.getD j 0 ≠ s.getD i 0 - 1) :
    (tree_to_taskgraph b s).1 = .ok b.nextId ∧
    ∃ tf, mapFind ((tree_to_taskgraph b s).2).taskflows b.nextId = some tf ∧
      ∀ j, (j, i) ∉ tf.edges := by
  rw [tree_to_taskgraph_spec]
  refine ⟨rfl, { tasks := taskNames s.length, edges := decodeEdges s },
    mapFind_mapInsert_self _ _ _, ?_⟩
  intro j hj
  have hnone : findParent s i = none := scanParent_eq_none.mpr hnoj
  rcases List.mem_filterMap.mp hj with ⟨i2, hi2, heq⟩
  rcases hfi2 : findParent s i2 with _ | j3
  · rw [hfi2] at heq; simp at heq
  · rw [hfi2] at heq
    simp only [Option.map_some', Option.some.injEq, Prod.mk.injEq] at heq
    rcases heq with ⟨he1, he2⟩
    rw [he2] at hfi2
    rw [hnone] at hfi2
    cases hfi2

/-- Claim C7 amended witness: applied to the sequence 2 at position 0. -/
theorem C7_no_malformed_failure_witness :
    (0 < ([2] : List Int).length) ∧
    (∀ j, j < 0 → ([2] : List Int).getD j 0 ≠ ([2] : List Int).getD 0 0 - 1) ∧
    ((tree_to_taskgraph initBridge [2]).1 = .ok 1 ∧
     ∃ tf, mapFind ((tree_to_taskgraph initBridge [2]).2).taskflows 1 = some tf ∧
       ∀ j, (j, 0) ∉ tf.edges) :=
  ⟨by decide, by decide,
    C7_no_malformed_failure initBridge [2] 0 (by decide) (by decide)⟩

/-- Claim C8 (code_bug evidence): with task 0 present in taskflow 1, the
self-loop call add_dependency(1, 0, 0) succeeds and inserts the edge from
task 0 to itself instead of being rejected. -/
theorem C8_selfloop_inserted :
    (add_dependency oneNodeBridge 1 0 0).1 = .ok () ∧
    mapFind ((add_dependency oneNodeBridge 1 0 0).2).taskflows 1 =
      some { tasks := ["A"], edges := [(0, 0)] } := ⟨rfl, rfl⟩

/-- Claim C9 counterexample: two resolving operations do not fail on an
unbound identifier: wait_taskflow ignores its argument and succeeds, and
taskgraph_to_tree returns the empty sequence instead of an error. -/
theorem C9_counterexample :
    wait_taskflow initBridge 999 = (.ok (), initBridge) ∧
    taskgraph_to_tree initBridge 999 = (([] : List Int), initBridge) := ⟨rfl, rfl⟩

/-- Claim C9 amended: every resolve-by-handle operation except
wait_taskflow and taskgraph_to_tree fails with its not-found error on an
unbound identifier and leaves the state unchanged; wait_taskflow succeeds
for every identifier, and taskgraph_to_tree returns the empty sequence. -/
theorem C9_not_found_behavior (b : Bridge) (id task_id from_task to_task : Nat)
    (name : String) (atom_type : Int) (attention : Float) (data : List Float)
    (htf : mapFind b.taskflows id = none)
    (hth : mapFind b.taskHandles id = none)
    (hsp : mapFind b.atomspaces id = none)
    (hat : mapFind b.atoms id = none)
    (htn : mapFind b.tensors id = none) :
    add_task b id task_id name = (.error .taskflowNotFound, b) ∧
    add_dependency b id from_task to_task = (.error .taskflowNotFound, b) ∧
    execute_taskflow b id = (.error .taskflowNotFound, b) ∧
    add_atom b id atom_type name = (.error .atomSpaceNotFound, b) ∧
    set_attention b id attention = (.error .atomNotFound, b) ∧
    get_attention b id = (.error .atomNotFound, b) ∧
    set_tensor_data b id data = (.error .tensorNotFound, b) ∧
    get_tensor_data b id = (.error .tensorNotFound, b) ∧
    wait_taskflow b id = (.ok (), b) ∧
    taskgraph_to_tree b id = (([] : List Int), b) := by
  refine ⟨?_, ?_, ?_, ?_, ?_, ?_, ?_, ?_, rfl, ?_⟩ <;>
    simp [add_task, add_dependency, execute_taskflow, add_atom, set_attention,
      get_attention, set_tensor_data, get_tensor_data, taskgraph_to_tree,
      htf, hth, hsp, hat, htn]

/-- Claim C9 amended witness: applied to a fresh bridge and the unbound
identifier 42. -/
theorem C9_not_found_behavior_witness :
    add_task initBridge 42 0 "n" = (.error .taskflowNotFound, initBridge) ∧
    add_dependency initBridge 42 0 0 = (.error .taskflowNotFound, initBridge) ∧
    execute_taskflow initBridge 42 = (.error .taskflowNotFound, initBridge) ∧
    add_atom initBridge 42 0 "n" = (.error .atomSpaceNotFound, initBridge) ∧
    set_attention initBridge 42 0.0 = (.error .atomNotFound, initBridge) ∧
    get_attention initBridge 42 = (.error .atomNotFound, initBridge) ∧
    set_tensor_data initBridge 42 [] = (.error .tensorNotFound, initBridge) ∧
    get_tensor_data initBridge 42 = (.error .tensorNotFound, initBridge) ∧
    wait_taskflow initBridge 42 = (.ok (), initBridge) ∧
    taskgraph_to_tree initBridge 42 = (([] : List Int), initBridge) :=
  C9_not_found_behavior initBridge 42 0 0 0 "n" 0 0.0 [] rfl rfl rfl rfl rfl

/-- Claim C10: no interface call removes an entry from the taskflow, handle,
atomspace, atom, or tensor registries: a key bound before any call sequence
is still bound after it, and the registry sizes reported by num_taskflows,
num_atomspaces and num_tensors never decrease. -/
theorem C10_registries_grow (b : Bridge) (ops : List Op) :
    (∀ k, (mapFind b.taskflows k).isSome → (mapFind (runOps b ops).taskflows k).isSome) ∧
    (∀ k, (mapFind b.taskHandles k).isSome → (mapFind (runOps b ops).taskHandles k).isSome) ∧
    (∀ k, (mapFind b.atomspaces k).isSome → (mapFind (runOps b ops).atomspaces k).isSome) ∧
    (∀ k, (mapFind b.atoms k).isSome → (mapFind (runOps b ops).atoms k).isSome) ∧
    (∀ k, (mapFind b.tensors k).isSome → (mapFind (runOps b ops).tensors k).isSome) ∧
    num_taskflows b ≤ num_taskflows (runOps b ops) ∧
    num_atomspaces b ≤ num_atomspaces (runOps b ops) ∧
    num_tensors b ≤ num_tensors (runOps b ops) := by
  induction ops generalizing b with
  | nil =>
    exact ⟨fun k h => h, fun k h => h, fun k h => h, fun k h => h, fun k h => h,
      Nat.le_refl _, Nat.le_refl _, Nat.le_refl _⟩
  | cons op ops ih =>
    have h1 := stepOp_preserves b op
    have h2 := ih (stepOp b op)
    exact ⟨fun k h => h2.1 k (h1.1 k h),
      fun k h => h2.2.1 k (h1.2.1 k h),
      fun k h => h2.2.2.1 k (h1.2.2.1 k h),
      fun k h => h2.2.2.2.1 k (h1.2.2.2.1 k h),
      fun k h => h2.2.2.2.2.1 k (h1.2.2.2.2.1 k h),
      Nat.le_trans h1.2.2.2.2.2.1 h2.2.2.2.2.2.1,
      Nat.le_trans h1.2.2.2.2.2.2.1 h2.2.2.2.2.2.2.1,
      Nat.le_trans h1.2.2.2.2.2.2.2 h2.2.2.2.2.2.2.2⟩

/-- Claim C10 witness: taskflow 1 of the two-task fixture stays bound across
a call sequence that also creates an atomspace and a tensor, and the tensor
registry size does not decrease. -/
theorem C10_registries_grow_witness :
    (mapFind twoNodeBridge.taskflows 1).isSome = true ∧
    (mapFind (runOps twoNodeBridge
      [Op.createAtomspace, Op.createTensor [2, 2]]).taskflows 1).isSome = true ∧
    num_tensors twoNodeBridge ≤ num_tensors (runOps twoNodeBridge
      [Op.createAtomspace, Op.createTensor [2, 2]]) :=
  ⟨by rfl,
    (C10_registries_grow twoNodeBridge [Op.createAtomspace, Op.createTensor [2, 2]]).1 1 (by rfl),
    (C10_registries_grow twoNodeBridge [Op.createAtomspace, Op.createTensor [2, 2]]).2.2.2.2.2.2.2⟩

end TaskBridge
